import Mathlib

/-!
Verification of src/src/filebrowser/auto-update-mgr.cpp (AutoUpdateManager).

The manager keeps three pieces of state:
  * watch_infos_        : QMap<QString, WatchedFileInfo>, local path -> metadata
  * watcher_            : QFileSystemWatcher, the set of armed paths
  * deleted_files_infos_: QQueue<WatchedFileInfo>, the deferred-delete FIFO

We embed the state as an association list (keyed by local path), a list of
armed paths, and a FIFO list, and each member function as a pure function
from state to state paired with the list of externally visible effects it
performs (bulk-cancel call on the transfer engine, upload task start, timer
scheduling, emitted signals, tray notifications, warning logs).

External collaborators (filesystem existence checks, the cache-path
resolver, the macOS recently-opened-image predicate, the path helpers from
utils) are passed in as an environment of pure functions.
-/

namespace AutoUpdate

/-- Metadata kept for one watched local file (class WatchedFileInfo declared
in auto-update-mgr.h): the owning account, the remote repo id, the path of
the file inside the repo, and whether an upload of it is in flight. -/
structure WatchedFileInfo where
  account : String
  repo_id : String
  path_in_repo : String
  uploading : Bool
deriving DecidableEq, Repr

/-- Modelled from the spec: the value stored by the default constructor of
WatchedFileInfo (its class definition is in auto-update-mgr.h, which is not
part of the provided source) has empty account / repo / path fields and is
not uploading.  QMap::operator[] inserts this value when the key is absent. -/
def defaultWatchedFileInfo : WatchedFileInfo :=
  { account := "", repo_id := "", path_in_repo := "", uploading := false }

/-- The signal payload of a finished FileUploadTask used by
onUpdateTaskFinished: localFilePath(), repoId(), path(). -/
structure FileUploadTask where
  local_path : String
  repo_id : String
  path_in_repo : String
deriving DecidableEq, Repr

/-- QMap lookup (watch_infos_.contains / read of watch_infos_[k]). -/
def alookup (m : List (String × WatchedFileInfo)) (k : String) :
    Option WatchedFileInfo :=
  match m with
  | [] => none
  | (k1, v) :: rest => if k1 = k then some v else alookup rest k

/-- QMap insert-or-overwrite (watch_infos_[k] = v). -/
def ainsert (m : List (String × WatchedFileInfo)) (k : String)
    (v : WatchedFileInfo) : List (String × WatchedFileInfo) :=
  match m with
  | [] => [(k, v)]
  | (k1, v1) :: rest =>
      if k1 = k then (k1, v) :: rest else (k1, v1) :: ainsert rest k v

/-- QMap remove (watch_infos_.remove(k)). -/
def aremove (m : List (String × WatchedFileInfo)) (k : String) :
    List (String × WatchedFileInfo) :=
  m.filter (fun kv => kv.1 != k)

/-- The environment of external collaborators. -/
structure Env where
  /-- QFileInfo(path).exists() -/
  fs : String → Bool
  /-- DataManager::getLocalCacheFilePath(repo_id, path_in_repo) -/
  cachePath : String → String → String
  /-- MacImageFilesWorkAround::isRecentOpenedImage (constantly false on
  platforms where the Q_OS_MAC block is not compiled). -/
  suppressed : String → Bool
  /-- the getParentPath helper from utils -/
  getParentPath : String → String
  /-- the getBaseName helper from utils -/
  getBaseName : String → String

/-- Externally visible effects performed by the manager. -/
inductive Effect where
  | cancelAllDownloadTasks : Effect
  | cleanAccountCache : Effect
  | startCachedFilesCleaner : Effect
  | warnNonExistent (local_path : String) : Effect
  | scheduleRecheck (delay_ms : Nat) : Effect
  | startUpload (account repo_id parent_dir local_path name : String)
      (overwrite : Bool) : Effect
  | fileUpdated (repo_id path_in_repo : String) : Effect
  | notifySuccess (repo_id : String) : Effect
  | notifyFailure (repo_id : String) : Effect
deriving DecidableEq, Repr

/-- The mutable state of AutoUpdateManager. -/
structure AumState where
  watch_infos : List (String × WatchedFileInfo)
  watcher : List String
  deleted_files_infos : List WatchedFileInfo
deriving DecidableEq, Repr

/-- The anonymous-namespace addPath helper: no-op success when the path is
already watched, otherwise QFileSystemWatcher::addPath, which fails (warning
log only) when the file does not exist. -/
def addPath (fs : String → Bool) (w : List String) (file : String) :
    List String :=
  if w.contains file then w
  else if fs file then file :: w
  else w

/-- The anonymous-namespace removePath helper: no-op success when the path
is not watched, otherwise QFileSystemWatcher::removePath. -/
def removePath (w : List String) (file : String) : List String :=
  w.filter (fun f => f != file)

/-- AutoUpdateManager::watchCachedFile. -/
def watchCachedFile (env : Env) (s : AumState)
    (account repo_id path : String) : AumState × List Effect :=
  let local_path := env.cachePath repo_id path
  if env.fs local_path = false then
    (s, [Effect.warnNonExistent local_path])
  else if s.deleted_files_infos.any
      (fun info => repo_id == info.repo_id && path == info.path_in_repo) then
    (s, [])
  else
    ({ s with
        watcher := addPath env.fs s.watcher local_path,
        watch_infos := ainsert s.watch_infos local_path
          { account := account, repo_id := repo_id, path_in_repo := path,
            uploading := false } },
     [])

/-- The foreach loop of AutoUpdateManager::cleanCachedFile: iterate over a
snapshot of the keys, removing each entry whose account is the current one.
(The keys are a snapshot of the map, so each one is present when visited;
the none branch is defensively a skip.) -/
def cleanLoop (cur_account : String) (keys : List String)
    (m : List (String × WatchedFileInfo)) : List (String × WatchedFileInfo) :=
  match keys with
  | [] => m
  | k :: rest =>
      match alookup m k with
      | some info =>
          cleanLoop cur_account rest
            (if info.account = cur_account then aremove m k else m)
      | none => cleanLoop cur_account rest m

/-- AutoUpdateManager::cleanCachedFile, with the current account passed in
(seafApplet->accountManager()->currentAccount()).  It performs the external
bulk-cancel call on the transfer engine, removes the registry entries of
the current account, and kicks off the cache cleaners.  It does not touch
the QFileSystemWatcher. -/
def cleanCachedFile (cur_account : String) (s : AumState) :
    AumState × List Effect :=
  ({ s with
      watch_infos := cleanLoop cur_account (s.watch_infos.map Prod.fst)
        s.watch_infos },
   [Effect.cancelAllDownloadTasks, Effect.cleanAccountCache,
    Effect.startCachedFilesCleaner])

/-- AutoUpdateManager::removeWatch. -/
def removeWatch (s : AumState) (local_path : String) : AumState :=
  { s with
      watch_infos := aremove s.watch_infos local_path,
      watcher := removePath s.watcher local_path }

/-- AutoUpdateManager::onFileChanged.  On macOS the recently-opened-image
predicate is consulted first; then the path is removed from the watcher,
the registry is consulted, and the event is routed to the deferred-delete
queue (file gone) or to a fresh upload task (file present). -/
def onFileChanged (env : Env) (s : AumState) (local_path : String) :
    AumState × List Effect :=
  if env.suppressed local_path then
    (s, [])
  else
    let s1 : AumState := { s with watcher := removePath s.watcher local_path }
    match alookup s1.watch_infos local_path with
    | none => (s1, [])
    | some info =>
        if env.fs local_path = false then
          let deferred_info := info
          let s2 := removeWatch s1 local_path
          ({ s2 with
              deleted_files_infos :=
                s2.deleted_files_infos ++ [deferred_info] },
           [Effect.scheduleRecheck 5000])
        else
          ({ s1 with
              watch_infos := ainsert s1.watch_infos local_path
                { info with uploading := true } },
           [Effect.startUpload info.account info.repo_id
              (env.getParentPath info.path_in_repo) local_path
              (env.getBaseName local_path) true])

/-- AutoUpdateManager::onUpdateTaskFinished.  On success the watcher is
re-armed and watch_infos_[local_path] is read through operator[], which
default-inserts when the key is absent; on failure the entry is removed. -/
def onUpdateTaskFinished (env : Env) (s : AumState) (task : FileUploadTask)
    (success : Bool) : AumState × List Effect :=
  let local_path := task.local_path
  if success then
    let info := (alookup s.watch_infos local_path).getD defaultWatchedFileInfo
    ({ s with
        watcher := addPath env.fs s.watcher local_path,
        watch_infos := ainsert s.watch_infos local_path
          { info with uploading := false } },
     [Effect.notifySuccess task.repo_id,
      Effect.fileUpdated task.repo_id task.path_in_repo])
  else
    ({ s with watch_infos := aremove s.watch_infos local_path },
     [Effect.notifyFailure task.repo_id])

/-- AutoUpdateManager::checkFileRecreated: dequeue the head of the deferred
queue; if its recomputed cache path exists again, re-register it, re-arm
the watcher and replay onFileChanged on it. -/
def checkFileRecreated (env : Env) (s : AumState) : AumState × List Effect :=
  match s.deleted_files_infos with
  | [] => (s, [])
  | info :: rest =>
      let s1 : AumState := { s with deleted_files_infos := rest }
      let path := env.cachePath info.repo_id info.path_in_repo
      if env.fs path then
        let s2 : AumState := { s1 with
          watcher := addPath env.fs s1.watcher path,
          watch_infos := ainsert s1.watch_infos path info }
        onFileChanged env s2 path
      else
        (s1, [])

/-- A sample watched-file record used by the concrete witnesses below. -/
def exInfo : WatchedFileInfo :=
  { account := "A", repo_id := "r1", path_in_repo := "p1", uploading := false }

/-- A state with one registered, armed path and an empty deferred queue. -/
def exState : AumState :=
  { watch_infos := [("/cache/r1/p1", exInfo)],
    watcher := ["/cache/r1/p1"],
    deleted_files_infos := [] }

/-- A state whose deferred queue holds exInfo and whose registry is empty. -/
def exStateQ : AumState :=
  { watch_infos := [], watcher := [], deleted_files_infos := [exInfo] }

/-- A concrete environment in which only /cache/r1/p1 exists. -/
def exEnv : Env :=
  { fs := fun p => p == "/cache/r1/p1",
    cachePath := fun repo file => "/cache/" ++ repo ++ "/" ++ file,
    suppressed := fun _ => false,
    getParentPath := fun _ => "/",
    getBaseName := fun p => p }

/-- The same environment after the backing file was deleted. -/
def exEnvGone : Env := { exEnv with fs := fun _ => false }

/-- The same environment on macOS while /cache/r1/p1 counts as a recently
opened image. -/
def exEnvSup : Env := { exEnv with suppressed := fun p => p == "/cache/r1/p1" }

/-- A concrete finished upload task for /cache/r1/p1. -/
def exTask : FileUploadTask :=
  { local_path := "/cache/r1/p1", repo_id := "r1", path_in_repo := "p1" }

/-- Environment for the C7 trace: both cache files exist. -/
def cex7Env : Env :=
  { fs := fun p => p == "/cache/r1/p1" || p == "/cache/r2/p2",
    cachePath := fun repo file => "/cache/" ++ repo ++ "/" ++ file,
    suppressed := fun _ => false,
    getParentPath := fun _ => "/",
    getBaseName := fun p => p }

/-- Environment for the C7 trace after /cache/r1/p1 was deleted. -/
def cex7EnvDel : Env := { cex7Env with fs := fun p => p == "/cache/r2/p2" }

/-- C7 trace, step 1: register r1/p1 while its cache file exists. -/
def cex7S1 : AumState := (watchCachedFile cex7Env ⟨[], [], []⟩ "A" "r1" "p1").1

/-- C7 trace, step 2: a change event starts an upload of r1/p1. -/
def cex7S2 : AumState := (onFileChanged cex7Env cex7S1 "/cache/r1/p1").1

/-- C7 trace, step 3: removeWatch while that upload is in flight. -/
def cex7S3 : AumState := removeWatch cex7S2 "/cache/r1/p1"

/-- C7 trace, step 4: the upload finishes with success; the success handler
default-inserts an entry with empty identity fields for the stale path. -/
def cex7S4 : AumState := (onUpdateTaskFinished cex7Env cex7S3
  { local_path := "/cache/r1/p1", repo_id := "r1", path_in_repo := "p1" } true).1

/-- C7 trace, step 5: the user deletes the file; the change event moves the
default-inserted entry (empty repo and path) into the deferred queue. -/
def cex7S5 : AumState := (onFileChanged cex7EnvDel cex7S4 "/cache/r1/p1").1

/-- C7 trace, step 6: register r2/p2. -/
def cex7S6 : AumState := (watchCachedFile cex7EnvDel cex7S5 "A" "r2" "p2").1

/-- C7 trace, step 7: a change event starts an upload of r2/p2. -/
def cex7S7 : AumState := (onFileChanged cex7EnvDel cex7S6 "/cache/r2/p2").1

/-- C7 trace, step 8: removeWatch while that upload is in flight. -/
def cex7S8 : AumState := removeWatch cex7S7 "/cache/r2/p2"

/-- C7 trace, step 9: that upload also finishes with success, default-
inserting a second entry with empty identity fields into the registry. -/
def cex7S9 : AumState := (onUpdateTaskFinished cex7EnvDel cex7S8
  { local_path := "/cache/r2/p2", repo_id := "r2", path_in_repo := "p2" } true).1

theorem alookup_ainsert_self (m : List (String × WatchedFileInfo)) (k : String)
    (v : WatchedFileInfo) : alookup (ainsert m k v) k = some v := by
  induction m with
  | nil => simp [ainsert, alookup]
  | cons hd tl ih =>
      obtain ⟨k1, v1⟩ := hd
      by_cases h : k1 = k
      · subst h; simp [ainsert, alookup]
      · simp [ainsert, alookup, h, ih]

theorem alookup_aremove_self (m : List (String × WatchedFileInfo))
    (k : String) : alookup (aremove m k) k = none := by
  induction m with
  | nil => rfl
  | cons hd tl ih =>
      obtain ⟨k1, v1⟩ := hd
      by_cases h : k1 = k
      · simpa [aremove, List.filter_cons, h] using ih
      · simpa [aremove, List.filter_cons, h, alookup] using ih

theorem mem_removePath_self (w : List String) (file : String) :
    file ∉ removePath w file := by
  intro hmem
  have := List.of_mem_filter hmem
  simp at this

theorem mem_addPath_self (fs : String → Bool) (w : List String) (file : String)
    (h : fs file = true) : file ∈ addPath fs w file := by
  unfold addPath
  by_cases hm : file ∈ w
  · simp [List.elem_iff.mpr hm, hm]
  · have hc : w.contains file = false := by
      rw [Bool.eq_false_iff]
      intro hcc
      exact hm (List.elem_iff.mp hcc)
    simp [hc, h, hm]

theorem aremove_of_not_mem_keys (m : List (String × WatchedFileInfo))
    (k : String) (h : k ∉ m.map Prod.fst) : aremove m k = m := by
  induction m with
  | nil => rfl
  | cons hd tl ih =>
      obtain ⟨k1, v1⟩ := hd
      simp only [List.map_cons, List.mem_cons, not_or] at h
      have h1 : (k1 != k) = true := bne_iff_ne.mpr (fun e => h.1 e.symm)
      have htl : aremove tl k = tl := ih h.2
      calc aremove ((k1, v1) :: tl) k
          = (k1, v1) :: aremove tl k := by
            simp only [aremove, List.filter_cons, h1, if_true]
        _ = (k1, v1) :: tl := by rw [htl]

theorem cleanLoop_cons_not_mem (cur : String) (keys : List String)
    (k : String) (v : WatchedFileInfo) (m : List (String × WatchedFileInfo))
    (h : k ∉ keys) :
    cleanLoop cur keys ((k, v) :: m) = (k, v) :: cleanLoop cur keys m := by
  induction keys generalizing m with
  | nil => rfl
  | cons k1 rest ih =>
      simp only [List.mem_cons, not_or] at h
      have hne : k ≠ k1 := h.1
      simp only [cleanLoop, alookup, if_neg hne]
      cases hl : alookup m k1 with
      | none => exact ih m h.2
      | some info =>
          by_cases ha : info.account = cur
          · simp only [if_pos ha]
            have hcons : aremove ((k, v) :: m) k1 = (k, v) :: aremove m k1 := by
              have h1 : (k != k1) = true := bne_iff_ne.mpr hne
              simp only [aremove, List.filter_cons, h1, if_true]
            rw [hcons]
            exact ih (aremove m k1) h.2
          · simp only [if_neg ha]
            exact ih m h.2

theorem cleanLoop_eq_filter (cur : String) (m : List (String × WatchedFileInfo))
    (h : (m.map Prod.fst).Nodup) :
    cleanLoop cur (m.map Prod.fst) m
      = m.filter (fun kv => kv.2.account != cur) := by
  induction m with
  | nil => rfl
  | cons hd tl ih =>
      obtain ⟨k, v⟩ := hd
      simp only [List.map_cons, List.nodup_cons] at h
      obtain ⟨hk, htl⟩ := h
      have hk2 : k ∉ tl.map Prod.fst := by
        intro hx
        exact hk (by simpa using hx)
      have hsome : alookup ((k, v) :: tl) k = some v := by simp [alookup]
      simp only [List.map_cons, cleanLoop, hsome]
      by_cases ha : v.account = cur
      · rw [if_pos ha]
        have hrm : aremove ((k, v) :: tl) k = tl := by
          have hstep : aremove ((k, v) :: tl) k = aremove tl k := by
            simp [aremove, List.filter_cons]
          rw [hstep, aremove_of_not_mem_keys tl k hk2]
        rw [hrm, ih htl]
        simp [List.filter_cons, ha]
      · rw [if_neg ha]
        rw [cleanLoop_cons_not_mem cur (tl.map Prod.fst) k v tl hk2, ih htl]
        simp [List.filter_cons, bne_iff_ne, ha]

theorem onFileChanged_suppressed_eq (env : Env) (s : AumState) (lp : String)
    (h : env.suppressed lp = true) :
    onFileChanged env s lp = (s, []) := by
  simp [onFileChanged, h]

theorem onFileChanged_stale_eq (env : Env) (s : AumState) (lp : String)
    (hsup : env.suppressed lp = false)
    (hlk : alookup s.watch_infos lp = none) :
    onFileChanged env s lp
      = ({ s with watcher := removePath s.watcher lp }, []) := by
  simp only [onFileChanged, hsup, Bool.false_eq_true, if_false]
  have hlk1 : alookup (AumState.mk s.watch_infos
      (removePath s.watcher lp) s.deleted_files_infos).watch_infos lp
      = none := hlk
  rw [hlk1]

theorem onFileChanged_missing_eq (env : Env) (s : AumState) (lp : String)
    (info : WatchedFileInfo)
    (hsup : env.suppressed lp = false)
    (hlk : alookup s.watch_infos lp = some info)
    (hfs : env.fs lp = false) :
    onFileChanged env s lp
      = ({ watch_infos := aremove s.watch_infos lp,
           watcher := removePath (removePath s.watcher lp) lp,
           deleted_files_infos := s.deleted_files_infos ++ [info] },
         [Effect.scheduleRecheck 5000]) := by
  simp only [onFileChanged, hsup, Bool.false_eq_true, if_false]
  have hlk1 : alookup (AumState.mk s.watch_infos
      (removePath s.watcher lp) s.deleted_files_infos).watch_infos lp
      = some info := hlk
  rw [hlk1]
  simp [removeWatch, hfs]

theorem onFileChanged_exists_eq (env : Env) (s : AumState) (lp : String)
    (info : WatchedFileInfo)
    (hsup : env.suppressed lp = false)
    (hlk : alookup s.watch_infos lp = some info)
    (hfs : env.fs lp = true) :
    onFileChanged env s lp
      = ({ watch_infos := ainsert s.watch_infos lp { info with uploading := true },
           watcher := removePath s.watcher lp,
           deleted_files_infos := s.deleted_files_infos },
         [Effect.startUpload info.account info.repo_id
            (env.getParentPath info.path_in_repo) lp
            (env.getBaseName lp) true]) := by
  simp only [onFileChanged, hsup, Bool.false_eq_true, if_false]
  have hlk1 : alookup (AumState.mk s.watch_infos
      (removePath s.watcher lp) s.deleted_files_infos).watch_infos lp
      = some info := hlk
  rw [hlk1]
  simp [hfs]

theorem watchCachedFile_inserts_eq (env : Env) (s : AumState)
    (account repo_id path : String)
    (hfs : env.fs (env.cachePath repo_id path) = true)
    (hdef : s.deleted_files_infos.any
      (fun info => repo_id == info.repo_id && path == info.path_in_repo) = false) :
    watchCachedFile env s account repo_id path
      = ({ s with
            watcher := addPath env.fs s.watcher (env.cachePath repo_id path),
            watch_infos := ainsert s.watch_infos (env.cachePath repo_id path)
              { account := account, repo_id := repo_id, path_in_repo := path,
                uploading := false } },
         []) := by
  simp [watchCachedFile, hfs, hdef]


/-- Claim C1, counterexample: cleanCachedFile removes the registry entry of
the current account but performs no removePath, so immediately after the
call (no event for the path is being processed) the path is still in the
watch set while it has no registry entry.  This refutes the claim that
every operation removing a registry entry also disarms the corresponding
notification subscription. -/
theorem cleanCachedFile_leaves_watcher_armed_cex :
    alookup (cleanCachedFile "A" exState).1.watch_infos "/cache/r1/p1" = none ∧
    "/cache/r1/p1" ∈ (cleanCachedFile "A" exState).1.watcher := by
  decide

/-- Claim C1 (amended): watchCachedFile arms the notification subscription
for the path as it inserts the registry entry, and removeWatch disarms it
as it removes the entry; cleanCachedFile however removes the matching
registry entries while leaving the watch set completely unchanged, so after
a clean-all a path can stay armed without a registry entry. -/
theorem registry_watcher_sync_per_operation (env : Env) (s : AumState)
    (account repo_id path cur lp : String)
    (hlp : env.cachePath repo_id path = lp)
    (hfs : env.fs lp = true)
    (hdef : s.deleted_files_infos.any
      (fun info => repo_id == info.repo_id && path == info.path_in_repo) = false) :
    (lp ∈ (watchCachedFile env s account repo_id path).1.watcher ∧
     alookup (watchCachedFile env s account repo_id path).1.watch_infos lp
       = some { account := account, repo_id := repo_id, path_in_repo := path,
                uploading := false }) ∧
    (alookup (removeWatch s lp).watch_infos lp = none ∧
     lp ∉ (removeWatch s lp).watcher) ∧
    (cleanCachedFile cur s).1.watcher = s.watcher := by
  subst hlp
  rw [watchCachedFile_inserts_eq env s account repo_id path hfs hdef]
  exact ⟨⟨mem_addPath_self env.fs s.watcher _ hfs,
          alookup_ainsert_self s.watch_infos _ _⟩,
         ⟨alookup_aremove_self s.watch_infos _,
          mem_removePath_self s.watcher _⟩,
         rfl⟩

/-- Claim C1, witness for the amended theorem at a concrete input. -/
theorem registry_watcher_sync_per_operation_witness :
    exEnv.cachePath "r1" "p1" = "/cache/r1/p1" ∧
    exEnv.fs "/cache/r1/p1" = true ∧
    (exState.deleted_files_infos.any
      (fun info => "r1" == info.repo_id && "p1" == info.path_in_repo)) = false ∧
    "/cache/r1/p1" ∈ (watchCachedFile exEnv exState "A" "r1" "p1").1.watcher ∧
    (cleanCachedFile "A" exState).1.watcher = exState.watcher :=
  ⟨by decide, by decide, by decide,
   (registry_watcher_sync_per_operation exEnv exState "A" "r1" "p1" "A"
      "/cache/r1/p1" (by decide) (by decide) (by decide)).1.1,
   (registry_watcher_sync_per_operation exEnv exState "A" "r1" "p1" "A"
      "/cache/r1/p1" (by decide) (by decide) (by decide)).2.2⟩

/-- Claim C2: cleanCachedFile performs the external bulk-cancel call on the
transfer engine (TransferManager::cancelAllDownloadTasks) as its first
effect, and the registry afterwards holds exactly the entries whose account
differs from the current one. -/
theorem cleanCachedFile_cancel_and_remove (cur : String) (s : AumState)
    (hnd : (s.watch_infos.map Prod.fst).Nodup) :
    (cleanCachedFile cur s).2
      = [Effect.cancelAllDownloadTasks, Effect.cleanAccountCache,
         Effect.startCachedFilesCleaner] ∧
    (cleanCachedFile cur s).1.watch_infos
      = s.watch_infos.filter (fun kv => kv.2.account != cur) :=
  ⟨rfl, cleanLoop_eq_filter cur s.watch_infos hnd⟩

/-- Claim C2, witness at a concrete input. -/
theorem cleanCachedFile_cancel_and_remove_witness :
    (exState.watch_infos.map Prod.fst).Nodup ∧
    (cleanCachedFile "A" exState).2
      = [Effect.cancelAllDownloadTasks, Effect.cleanAccountCache,
         Effect.startCachedFilesCleaner] ∧
    (cleanCachedFile "A" exState).1.watch_infos
      = exState.watch_infos.filter (fun kv => kv.2.account != "A") :=
  ⟨by decide, (cleanCachedFile_cancel_and_remove "A" exState (by decide)).1,
   (cleanCachedFile_cancel_and_remove "A" exState (by decide)).2⟩

/-- Claim C3, counterexample: when the macOS recently-opened-image predicate
holds for the path, onFileChanged returns with the state untouched and the
path still armed, so the subscription is not disarmed as the first step;
the predicate is consulted before any disarming. -/
theorem onFileChanged_suppressed_keeps_armed_cex :
    onFileChanged exEnvSup exState "/cache/r1/p1" = (exState, []) ∧
    "/cache/r1/p1" ∈ (onFileChanged exEnvSup exState "/cache/r1/p1").1.watcher := by
  decide

/-- Claim C3 (amended): the platform-specific suppression predicate is
consulted first — when it holds, onFileChanged is a complete no-op and the
path stays armed; when it does not hold, the subscription for the path is
disarmed before the registry lookup, so the path is absent from the watch
set afterwards in every branch, including the one where the registry does
not contain it. -/
theorem onFileChanged_suppression_then_disarm (env : Env) (s : AumState)
    (lp : String) :
    (env.suppressed lp = true → onFileChanged env s lp = (s, [])) ∧
    (env.suppressed lp = false → lp ∉ (onFileChanged env s lp).1.watcher) := by
  refine ⟨fun h => onFileChanged_suppressed_eq env s lp h, fun h => ?_⟩
  cases hl : alookup s.watch_infos lp with
  | none =>
      rw [onFileChanged_stale_eq env s lp h hl]
      exact mem_removePath_self s.watcher lp
  | some info =>
      by_cases hfs : env.fs lp = false
      · rw [onFileChanged_missing_eq env s lp info h hl hfs]
        exact mem_removePath_self _ lp
      · have hfs2 : env.fs lp = true := by
          revert hfs
          cases env.fs lp <;> simp
        rw [onFileChanged_exists_eq env s lp info h hl hfs2]
        exact mem_removePath_self s.watcher lp

/-- Claim C3, witness for the amended theorem at a concrete input. -/
theorem onFileChanged_suppression_then_disarm_witness :
    exEnv.suppressed "/cache/r1/p1" = false ∧
    "/cache/r1/p1" ∉ (onFileChanged exEnv exState "/cache/r1/p1").1.watcher :=
  ⟨rfl, (onFileChanged_suppression_then_disarm exEnv exState "/cache/r1/p1").2 rfl⟩

/-- Claim C4: when a change event arrives for a registered path whose file
no longer exists (and the event is not suppressed), the handler removes the
entry from the registry, leaves the path disarmed, appends the entry at the
tail of the deferred-delete queue, and its only effect is scheduling the
one-shot 5000 ms re-check — in particular no upload is started and no
failure is signalled. -/
theorem onFileChanged_missing_file_defers (env : Env) (s : AumState)
    (lp : String) (info : WatchedFileInfo)
    (hsup : env.suppressed lp = false)
    (hlk : alookup s.watch_infos lp = some info)
    (hfs : env.fs lp = false) :
    (onFileChanged env s lp).1.watch_infos = aremove s.watch_infos lp ∧
    lp ∉ (onFileChanged env s lp).1.watcher ∧
    (onFileChanged env s lp).1.deleted_files_infos
      = s.deleted_files_infos ++ [info] ∧
    (onFileChanged env s lp).2 = [Effect.scheduleRecheck 5000] := by
  rw [onFileChanged_missing_eq env s lp info hsup hlk hfs]
  exact ⟨rfl, mem_removePath_self _ lp, rfl, rfl⟩

/-- Claim C4, witness at a concrete input. -/
theorem onFileChanged_missing_file_defers_witness :
    exEnvGone.suppressed "/cache/r1/p1" = false ∧
    alookup exState.watch_infos "/cache/r1/p1" = some exInfo ∧
    exEnvGone.fs "/cache/r1/p1" = false ∧
    (onFileChanged exEnvGone exState "/cache/r1/p1").2
      = [Effect.scheduleRecheck 5000] ∧
    (onFileChanged exEnvGone exState "/cache/r1/p1").1.deleted_files_infos
      = exState.deleted_files_infos ++ [exInfo] :=
  ⟨rfl, by decide, rfl,
   (onFileChanged_missing_file_defers exEnvGone exState "/cache/r1/p1" exInfo
      rfl (by decide) rfl).2.2.2,
   (onFileChanged_missing_file_defers exEnvGone exState "/cache/r1/p1" exInfo
      rfl (by decide) rfl).2.2.1⟩

/-- Claim C5: a firing of checkFileRecreated with a non-empty queue dequeues
exactly the head (FIFO) and recomputes its local cache path.  If the file
exists again, the run equals re-registering the entry, re-arming its
notification, and replaying onFileChanged on the re-armed state; the final
state has the entry back in the registry (marked uploading) with the queue
shortened by one, and (when the event is not suppressed) its one effect is
starting an upload with overwrite set to true.  If the file still does not
exist, the only change is dropping the head of the queue. -/
theorem checkFileRecreated_dequeues_and_replays (env : Env) (s : AumState)
    (info : WatchedFileInfo) (rest : List WatchedFileInfo)
    (hq : s.deleted_files_infos = info :: rest)
    (hsup : env.suppressed (env.cachePath info.repo_id info.path_in_repo)
      = false) :
    (env.fs (env.cachePath info.repo_id info.path_in_repo) = true →
       checkFileRecreated env s
         = onFileChanged env
             (AumState.mk
               (ainsert s.watch_infos
                 (env.cachePath info.repo_id info.path_in_repo) info)
               (addPath env.fs s.watcher
                 (env.cachePath info.repo_id info.path_in_repo))
               rest)
             (env.cachePath info.repo_id info.path_in_repo) ∧
       (checkFileRecreated env s).1.deleted_files_infos = rest ∧
       alookup (checkFileRecreated env s).1.watch_infos
           (env.cachePath info.repo_id info.path_in_repo)
         = some { info with uploading := true } ∧
       (checkFileRecreated env s).2
         = [Effect.startUpload info.account info.repo_id
              (env.getParentPath info.path_in_repo)
              (env.cachePath info.repo_id info.path_in_repo)
              (env.getBaseName (env.cachePath info.repo_id info.path_in_repo))
              true]) ∧
    (env.fs (env.cachePath info.repo_id info.path_in_repo) = false →
       checkFileRecreated env s = ({ s with deleted_files_infos := rest }, [])) := by
  constructor
  · intro hfs
    have hstep : checkFileRecreated env s
        = onFileChanged env
            (AumState.mk
              (ainsert s.watch_infos
                (env.cachePath info.repo_id info.path_in_repo) info)
              (addPath env.fs s.watcher
                (env.cachePath info.repo_id info.path_in_repo))
              rest)
            (env.cachePath info.repo_id info.path_in_repo) := by
      simp only [checkFileRecreated]
      rw [hq]
      simp [hfs]
    have hrun := onFileChanged_exists_eq env
        (AumState.mk
          (ainsert s.watch_infos
            (env.cachePath info.repo_id info.path_in_repo) info)
          (addPath env.fs s.watcher
            (env.cachePath info.repo_id info.path_in_repo))
          rest)
        (env.cachePath info.repo_id info.path_in_repo) info hsup
        (alookup_ainsert_self s.watch_infos _ info) hfs
    refine ⟨hstep, ?_, ?_, ?_⟩
    · rw [hstep, hrun]
    · rw [hstep, hrun]
      exact alookup_ainsert_self _ _ _
    · rw [hstep, hrun]
  · intro hfs
    simp only [checkFileRecreated]
    rw [hq]
    simp [hfs]

/-- Claim C5, witness at a concrete input. -/
theorem checkFileRecreated_dequeues_and_replays_witness :
    exStateQ.deleted_files_infos = exInfo :: [] ∧
    exEnv.suppressed (exEnv.cachePath exInfo.repo_id exInfo.path_in_repo)
      = false ∧
    exEnv.fs (exEnv.cachePath exInfo.repo_id exInfo.path_in_repo) = true ∧
    (checkFileRecreated exEnv exStateQ).2
      = [Effect.startUpload exInfo.account exInfo.repo_id
           (exEnv.getParentPath exInfo.path_in_repo)
           (exEnv.cachePath exInfo.repo_id exInfo.path_in_repo)
           (exEnv.getBaseName (exEnv.cachePath exInfo.repo_id exInfo.path_in_repo))
           true] :=
  ⟨rfl, rfl, by decide,
   ((checkFileRecreated_dequeues_and_replays exEnv exStateQ exInfo [] rfl
      rfl).1 (by decide)).2.2.2⟩

/-- Claim C6: when the resolved local cache path does not exist,
watchCachedFile returns with the state exactly unchanged and its only
effect is the warning log — no registry insert, no arming, no error. -/
theorem watchCachedFile_nonexistent_noop (env : Env) (s : AumState)
    (account repo_id path : String)
    (hfs : env.fs (env.cachePath repo_id path) = false) :
    watchCachedFile env s account repo_id path
      = (s, [Effect.warnNonExistent (env.cachePath repo_id path)]) := by
  simp [watchCachedFile, hfs]

/-- Claim C6, witness at a concrete input. -/
theorem watchCachedFile_nonexistent_noop_witness :
    exEnvGone.fs (exEnvGone.cachePath "r1" "p1") = false ∧
    watchCachedFile exEnvGone exState "A" "r1" "p1"
      = (exState, [Effect.warnNonExistent (exEnvGone.cachePath "r1" "p1")]) :=
  ⟨rfl, watchCachedFile_nonexistent_noop exEnvGone exState "A" "r1" "p1" rfl⟩

/-- Claim C7, counterexample to the exclusivity consequence: after the
reachable trace cex7S1 … cex7S9 (register, upload, removeWatch during the
upload, stale success callback default-inserting an empty-identity entry,
deletion event enqueuing that entry, then the same sequence for a second
file), the pair (repo_id = "", path_in_repo = "") simultaneously has an
active registry entry (under local path /cache/r2/p2) and an entry in the
deferred-delete queue. -/
theorem registry_queue_exclusivity_cex :
    alookup cex7S9.watch_infos "/cache/r2/p2" = some defaultWatchedFileInfo ∧
    cex7S9.deleted_files_infos = [defaultWatchedFileInfo] := by
  decide

/-- Claim C7 (amended): a watchCachedFile call whose (repo_id, path_in_repo)
pair currently has an entry in the deferred-delete queue is a complete
no-op — unchanged state (registry, watcher and queue) and no effects.  The
claimed consequence that no pair ever has a registry entry and a queue
entry simultaneously does not follow in general: it fails for the
degenerate empty-identity pair created when a stale upload-success callback
default-inserts an entry (see the counterexample trace). -/
theorem watchCachedFile_deferred_noop (env : Env) (s : AumState)
    (account repo_id path : String)
    (hfs : env.fs (env.cachePath repo_id path) = true)
    (hdef : s.deleted_files_infos.any
      (fun info => repo_id == info.repo_id && path == info.path_in_repo) = true) :
    watchCachedFile env s account repo_id path = (s, []) := by
  simp [watchCachedFile, hfs, hdef]

/-- Claim C7, witness for the amended theorem at a concrete input. -/
theorem watchCachedFile_deferred_noop_witness :
    exEnv.fs (exEnv.cachePath "r1" "p1") = true ∧
    exStateQ.deleted_files_infos.any
      (fun info => "r1" == info.repo_id && "p1" == info.path_in_repo) = true ∧
    watchCachedFile exEnv exStateQ "A" "r1" "p1" = (exStateQ, []) :=
  ⟨by decide, by decide,
   watchCachedFile_deferred_noop exEnv exStateQ "A" "r1" "p1"
     (by decide) (by decide)⟩

/-- Claim C8: when the upload's terminal callback fires with success, the
watch for the local path is re-armed, the stored entry's uploading flag is
false afterwards, and the handler emits the fileUpdated(repo_id, path)
signal together with the success notification; when it fires with failure,
the entry is removed from the registry entirely and the only effect is the
failure notification — no retry upload is started. -/
theorem onUpdateTaskFinished_terminal (env : Env) (s : AumState)
    (task : FileUploadTask) (hfs : env.fs task.local_path = true) :
    (task.local_path ∈ (onUpdateTaskFinished env s task true).1.watcher ∧
     (alookup (onUpdateTaskFinished env s task true).1.watch_infos
        task.local_path).map WatchedFileInfo.uploading = some false ∧
     (onUpdateTaskFinished env s task true).2
       = [Effect.notifySuccess task.repo_id,
          Effect.fileUpdated task.repo_id task.path_in_repo]) ∧
    (alookup (onUpdateTaskFinished env s task false).1.watch_infos
        task.local_path = none ∧
     (onUpdateTaskFinished env s task false).2
       = [Effect.notifyFailure task.repo_id]) := by
  refine ⟨⟨mem_addPath_self env.fs s.watcher task.local_path hfs, ?_, rfl⟩,
    alookup_aremove_self s.watch_infos task.local_path, rfl⟩
  have h1 : (onUpdateTaskFinished env s task true).1.watch_infos
      = ainsert s.watch_infos task.local_path
          { (alookup s.watch_infos task.local_path).getD defaultWatchedFileInfo
            with uploading := false } := rfl
  rw [h1, alookup_ainsert_self]
  rfl

/-- Claim C8, witness at a concrete input. -/
theorem onUpdateTaskFinished_terminal_witness :
    exEnv.fs exTask.local_path = true ∧
    "/cache/r1/p1" ∈ (onUpdateTaskFinished exEnv exState exTask true).1.watcher ∧
    alookup (onUpdateTaskFinished exEnv exState exTask false).1.watch_infos
      exTask.local_path = none :=
  ⟨by decide,
   (onUpdateTaskFinished_terminal exEnv exState exTask (by decide)).1.1,
   (onUpdateTaskFinished_terminal exEnv exState exTask (by decide)).2.1⟩

/-- Claim C9: cleanCachedFile removes from the registry exactly the entries
whose account equals the current account — the resulting registry is the
filter keeping the other accounts, and every entry (key and value) whose
account differs is still present unchanged afterwards. -/
theorem cleanCachedFile_frame (cur : String) (s : AumState)
    (hnd : (s.watch_infos.map Prod.fst).Nodup) :
    (cleanCachedFile cur s).1.watch_infos
      = s.watch_infos.filter (fun kv => kv.2.account != cur) ∧
    ∀ kv ∈ s.watch_infos, kv.2.account ≠ cur →
      kv ∈ (cleanCachedFile cur s).1.watch_infos := by
  have hf := cleanLoop_eq_filter cur s.watch_infos hnd
  refine ⟨hf, fun kv hmem hne => ?_⟩
  have heq : (cleanCachedFile cur s).1.watch_infos
      = s.watch_infos.filter (fun kv => kv.2.account != cur) := hf
  rw [heq]
  exact List.mem_filter.mpr ⟨hmem, by simpa [bne_iff_ne] using hne⟩

/-- Claim C9, witness at a concrete input (cleaning account B leaves the
account-A entry in place). -/
theorem cleanCachedFile_frame_witness :
    (exState.watch_infos.map Prod.fst).Nodup ∧
    (cleanCachedFile "B" exState).1.watch_infos
      = exState.watch_infos.filter (fun kv => kv.2.account != "B") :=
  ⟨by decide, (cleanCachedFile_frame "B" exState (by decide)).1⟩

/-- Claim C10: when the success callback fires for a local path that has no
registry entry, the handler still re-arms the watch and default-inserts a
fresh WatchedFileInfo with empty account, repo and path fields for that
path (QMap::operator[] semantics), instead of leaving it unregistered. -/
theorem onUpdateTaskFinished_stale_success (env : Env) (s : AumState)
    (task : FileUploadTask)
    (habs : alookup s.watch_infos task.local_path = none)
    (hfs : env.fs task.local_path = true) :
    alookup (onUpdateTaskFinished env s task true).1.watch_infos
        task.local_path = some defaultWatchedFileInfo ∧
    task.local_path ∈ (onUpdateTaskFinished env s task true).1.watcher := by
  constructor
  · have h1 : (onUpdateTaskFinished env s task true).1.watch_infos
        = ainsert s.watch_infos task.local_path
            { (alookup s.watch_infos task.local_path).getD defaultWatchedFileInfo
              with uploading := false } := rfl
    rw [h1, habs]
    exact alookup_ainsert_self s.watch_infos task.local_path _
  · exact mem_addPath_self env.fs s.watcher task.local_path hfs

/-- Claim C10, witness at a concrete input. -/
theorem onUpdateTaskFinished_stale_success_witness :
    alookup (AumState.mk [] [] []).watch_infos exTask.local_path = none ∧
    exEnv.fs exTask.local_path = true ∧
    alookup (onUpdateTaskFinished exEnv (AumState.mk [] [] []) exTask
        true).1.watch_infos exTask.local_path = some defaultWatchedFileInfo :=
  ⟨rfl, by decide,
   (onUpdateTaskFinished_stale_success exEnv (AumState.mk [] [] []) exTask
      rfl (by decide)).1⟩

end AutoUpdate
